import Mathlib

/-!
Shallow embedding of the DevSecOps scan-orchestration pipeline.

The definitions below translate, function by function, the Python sources of
the repository:
  * `ai-agent/workflow/graph.py`   (the per-finding LangGraph workflow),
  * `ai-agent/services/pr_agent.py` (the PR publisher, abstracted as an
    environment call since it only performs external I/O),
  * `services/common/core/utils.py` (snippet population),
  * `services/scanner/core/parser.py` (path cleaning),
  * `services/scanner/core/scanner.py` (delta-mode analyzer targets),
  * `services/orchestrator/core/logic.py` (scan coordinator, modelled as an
    event trace).

Python strings are modelled as `List Char`; machine I/O (database, LLM,
sandbox, git, filesystem) is modelled as explicit environments so that every
function is pure and executable.
-/

namespace DevSecOps

/-- Python strings, modelled as lists of characters. -/
abbrev Str := List Char

/-- Conversion from Lean string literals to the model's string type. -/
def str (s : String) : Str := s.data

/-- Python `s.strip()`: remove leading and trailing whitespace. -/
def pstrip (s : Str) : Str :=
  ((s.dropWhile Char.isWhitespace).reverse.dropWhile Char.isWhitespace).reverse

/-- Python `len(s.splitlines())` for a newline-separated string:
zero for the empty string, otherwise the number of newline characters plus
one when the string does not end in a newline. -/
def countLines (s : Str) : Nat :=
  if s.isEmpty then 0
  else s.count '\n' + (if s.getLast? = some '\n' then 0 else 1)

/-- Resolve one Python slice index against a list of length `n`:
negative indices count from the end (clamped at zero), nonnegative
indices are clamped at `n`. -/
def pyIdx (n : Nat) (i : Int) : Nat :=
  if i < 0 then ((n : Int) + i).toNat else min i.toNat n

/-- Python slicing `l[a:b]` with possibly negative bounds. -/
def pySlice {α : Type} (l : List α) (a b : Int) : List α :=
  (l.take (pyIdx l.length b)).drop (pyIdx l.length a)

/-- Apply `g` to the last element of a list (Python mutation of `lst[-1]`). -/
def mapLast {α : Type} (g : α → α) : List α → List α
  | [] => []
  | [x] => [g x]
  | x :: y :: xs => x :: mapLast g (y :: xs)

theorem mapLast_nil {α : Type} (g : α → α) : mapLast g ([] : List α) = [] := rfl

theorem mapLast_concat {α : Type} (g : α → α) (l : List α) (x : α) :
    mapLast g (l ++ [x]) = l ++ [g x] := by
  induction l with
  | nil => rfl
  | cons a as ih =>
    cases as with
    | nil => simp [mapLast] at ih ⊢
    | cons b bs => simpa [mapLast] using ih

-- sanity examples for the helpers (Python semantics checks)
example : countLines (str "a\nb") = 2 := by decide
example : countLines (str "a\n") = 1 := by decide
example : countLines (str "") = 0 := by decide
example : pySlice [1, 2, 3] 94 1 = ([] : List Nat) := by decide
example : pySlice [1, 2, 3] 0 2 = ([1, 2] : List Nat) := by decide
example : pstrip (str "  a ") = str "a" := by decide

/-- Python's substring test `needle in hay` (contiguous occurrence). -/
def occursIn (needle hay : Str) : Bool :=
  match hay with
  | [] => needle.isEmpty
  | _ :: t => needle.isPrefixOf hay || occursIn needle t

example : occursIn (str "TP") (str "xTPy") = true := by decide
example : occursIn (str "TP") (str "TxPy") = false := by decide
example : occursIn (str "") (str "") = true := by decide

/-! ## The finding record and workflow state (`graph.py`, `GraphState`) -/

/-- One finding as it flows through the LangGraph workflow
(a Python dict; the nullable keys are `Option`s, matching the columns of
`common/core/models.py`). -/
structure Finding where
  id : Option Nat := none
  file : Str := []
  message : Str := []
  snippet : Str := []
  ai_verdict : Option Str := none
  triage_decision : Option Str := none
  red_team_success : Option Bool := none
  red_team_output : Option Str := none
  remediation_patch : Option Str := none
  pr_url : Option Str := none
  pr_error : Option Str := none
deriving DecidableEq, Repr

/-- The LangGraph `GraphState` of `graph.py`. -/
structure GraphState where
  findings : List Finding
  current_index : Nat
  analyzed_findings : List Finding
  source_path : Str
  project : Str
deriving DecidableEq, Repr

/-- External collaborators of the workflow (LLM service, sandbox, GitHub).
Each field models one `try:`-guarded external call of `graph.py`:
`none` / `.error` is an exception raised by the call. -/
structure Env where
  /-- `llm.invoke` in `node_triage`: the raw response content, or an error. -/
  triage_llm : Finding → Option Str
  /-- `llm.invoke` + `verify_poc` + `save_telemetry` in `node_red_team`:
  `(success, output)` of the PoC run, or an exception anywhere in the try. -/
  red_team : Str → Finding → Option (Bool × Str)
  /-- `llm.invoke` in `node_remediate`: the raw patch response, or an error. -/
  remediate_llm : Finding → Option Str
  /-- `create_security_pr` in `node_publish` (`pr_agent.py`): the PR URL on
  success, the raised error text on failure. Arguments: project, finding,
  patch content. -/
  create_pr : Str → Finding → Str → Except Str Str

/-! ## `node_triage` (graph.py lines 42-104) -/

/-- The verdict normalization of `node_triage`:
`re.sub(r'[^a-zA-Z]', '', response.content).upper()`, then
`"TP" if "TP" in verdict else "FP"`; `"FP"` when `llm.invoke` raised. -/
def triage_verdict (resp : Option Str) : Str :=
  match resp with
  | some content =>
    let verdict := (content.filter Char.isAlpha).map Char.toUpper
    if occursIn (str "TP") verdict then str "TP" else str "FP"
  | none => str "FP"

/-- The record appended to `analyzed_findings` by `node_triage`. -/
def triaged_finding (env : Env) (f : Finding) : Finding :=
  let v := triage_verdict (env.triage_llm f)
  { f with
    ai_verdict := some v
    triage_decision := some (if v = str "TP" then str "RV" else str "FP") }

/-- Node `node_triage`: reads `findings[current_index]` (raising `IndexError` when
out of range — the read at line 52 happens before the `index >= len(findings)`
guard at line 56), calls the LLM and appends the annotated finding. -/
def node_triage (env : Env) (st : GraphState) : Except Unit GraphState :=
  match st.findings[st.current_index]? with
  | none => .error ()      -- IndexError from `findings[index]` at line 52
  | some finding =>
    if st.findings.length ≤ st.current_index then .ok st  -- dead guard, line 56
    else
      .ok { st with
        analyzed_findings := st.analyzed_findings ++ [triaged_finding env finding]
        current_index := st.current_index + 1 }

/-! ## `node_red_team` (graph.py lines 106-143) -/

/-- Effect of `node_red_team` on the current finding `analyzed[-1]`. -/
def red_team_finding (env : Env) (src : Str) (f : Finding) : Finding :=
  if f.ai_verdict = some (str "TP") then
    match env.red_team src f with
    | some (succ, out) =>
      { f with red_team_success := some succ, red_team_output := some out }
    | none => { f with red_team_success := some false }
  else f

/-- Node `node_red_team`: acts on `analyzed_findings[-1]` only. -/
def node_red_team (env : Env) (st : GraphState) : GraphState :=
  { st with analyzed_findings :=
      mapLast (red_team_finding env st.source_path) st.analyzed_findings }

/-! ## `node_remediate` (graph.py lines 145-194) -/

/-- The backtick character (the code-fence marker), by code point. -/
def tickChar : Char := Char.ofNat 96

/-- Length of a match of the code-fence-header pattern (three backticks, a
run of ASCII letters, a newline) at the head of `s`, if any. -/
def fenceLen (s : Str) : Option Nat :=
  match s with
  | a :: b :: c :: rest =>
    if a = tickChar ∧ b = tickChar ∧ c = tickChar then
      let run := rest.takeWhile Char.isAlpha
      match rest.drop run.length with
      | d :: _ => if d = '\n' then some (4 + run.length) else none
      | [] => none
    else none
  | _ => none

theorem fenceLen_pos : ∀ {s : Str} {n : Nat}, fenceLen s = some n → 0 < n ∧ s ≠ [] := by
  intro s n h
  match s with
  | [] => simp [fenceLen] at h
  | [a] => simp [fenceLen] at h
  | [a, b] => simp [fenceLen] at h
  | a :: b :: c :: rest =>
    refine ⟨?_, by simp⟩
    simp only [fenceLen] at h
    split at h
    · split at h
      · split at h
        · simp only [Option.some.injEq] at h
          omega
        · exact absurd h (by simp)
      · exact absurd h (by simp)
    · exact absurd h (by simp)

/-- Left-to-right removal of every code-fence-header match: the embedding of
`re.sub(r"[fence][a-zA-Z]*\n", "", content)` in `node_remediate`. -/
def subFence (s : Str) : Str :=
  match h : fenceLen s with
  | some n => subFence (s.drop n)
  | none =>
    match s with
    | [] => []
    | c :: cs => c :: subFence cs
termination_by s.length
decreasing_by
  · have hp := fenceLen_pos h
    have : s.length - n < s.length := by
      cases s with
      | nil => exact absurd rfl hp.2
      | cons a t => simp; omega
    simpa using this
  · simp

/-- Left-to-right removal of every occurrence of three backticks:
`.replace(backticks, "")` in `node_remediate`. -/
def removeTicks : Str → Str
  | a :: b :: c :: rest =>
    if a = tickChar ∧ b = tickChar ∧ c = tickChar then removeTicks rest
    else a :: removeTicks (b :: c :: rest)
  | a :: rest => a :: removeTicks rest
  | [] => []

/-- The patch cleanup of `node_remediate`:
strip fence headers, strip remaining triple backticks, then `.strip()`. -/
def clean_patch (content : Str) : Str := pstrip (removeTicks (subFence content))

/-- Effect of `node_remediate` on the current finding: only TP findings get a
patch; an LLM error leaves the finding untouched. -/
def remediate_finding (env : Env) (f : Finding) : Finding :=
  if f.ai_verdict = some (str "TP") then
    match env.remediate_llm f with
    | some content => { f with remediation_patch := some (clean_patch content) }
    | none => f
  else f

/-- Node `node_remediate`: acts on `analyzed_findings[-1]` only. -/
def node_remediate (env : Env) (st : GraphState) : GraphState :=
  { st with analyzed_findings := mapLast (remediate_finding env) st.analyzed_findings }

/-! ## `node_sanity_check` (graph.py lines 261-296) -/

/-- The list `CRITICAL_MODULES = ["auth", "jwt", "session", "encrypt"]`. -/
def CRITICAL_MODULES : List Str := [str "auth", str "jwt", str "session", str "encrypt"]

/-- Effect of `node_sanity_check` on the current finding.  A falsy patch
(`None` or the empty string) returns early; otherwise the patch is nulled
when some critical token of the snippet is missing from the patch, or the
patch is whitespace-only, or the patch has fewer than 2 lines while the
snippet has more than 10. -/
def sanity_finding (f : Finding) : Finding :=
  match f.remediation_patch with
  | none => f
  | some patch =>
    if patch.isEmpty then f
    else
      let deleted_criticals :=
        CRITICAL_MODULES.filter (fun w => occursIn w f.snippet && !(occursIn w patch))
      if deleted_criticals ≠ [] ∨ pstrip patch = [] ∨
          (countLines patch < 2 ∧ 10 < countLines f.snippet) then
        { f with remediation_patch := none }
      else f

/-- Node `node_sanity_check`: acts on `analyzed_findings[-1]` only. -/
def node_sanity_check (st : GraphState) : GraphState :=
  { st with analyzed_findings := mapLast sanity_finding st.analyzed_findings }

/-! ## `node_publish` (graph.py lines 196-236) -/

/-- Effect of `node_publish` on the current finding.  A falsy patch skips the
PR; on success `pr_url` is stored; a raised error is caught and merely
printed — in particular `pr_error` is NOT written. -/
def publish_finding (env : Env) (proj : Str) (f : Finding) : Finding :=
  match f.remediation_patch with
  | none => f
  | some patch =>
    if patch.isEmpty then f
    else
      match env.create_pr proj f patch with
      | .ok url => { f with pr_url := some url }
      | .error _ => f

/-- Node `node_publish`: acts on `analyzed_findings[-1]` only. -/
def node_publish (env : Env) (st : GraphState) : GraphState :=
  { st with analyzed_findings :=
      mapLast (publish_finding env st.project) st.analyzed_findings }

/-! ## The graph loop (`should_continue` and the compiled workflow) -/

/-- Outcome of the conditional edge after `publish`. -/
inductive Route
  | to_triage
  | finish
deriving DecidableEq, Repr

/-- Edge `should_continue`: `END` iff `current_index >= len(findings)`. -/
def should_continue (st : GraphState) : Route :=
  if st.findings.length ≤ st.current_index then .finish else .to_triage

/-- One pass of the graph: triage, red team, remediate, sanity check,
publish (in the edge order of `workflow.add_edge`). -/
def step_finding (env : Env) (st : GraphState) : Except Unit GraphState :=
  match node_triage env st with
  | .error e => .error e
  | .ok s1 =>
    .ok (node_publish env (node_sanity_check (node_remediate env (node_red_team env s1))))

/-- Composite per-finding effect of one pass on the newly triaged record. -/
def process_finding (env : Env) (src proj : Str) (f : Finding) : Finding :=
  publish_finding env proj
    (sanity_finding (remediate_finding env (red_team_finding env src f)))

theorem node_triage_oob {env : Env} {st : GraphState}
    (h : st.findings.length ≤ st.current_index) :
    node_triage env st = .error () := by
  unfold node_triage
  rw [List.getElem?_eq_none h]

theorem node_triage_ok {env : Env} {st st' : GraphState}
    (h : node_triage env st = .ok st') :
    st.current_index < st.findings.length ∧
    ∃ f, st.findings[st.current_index]? = some f ∧
      st' = { st with
        analyzed_findings := st.analyzed_findings ++ [triaged_finding env f]
        current_index := st.current_index + 1 } := by
  unfold node_triage at h
  split at h
  next hg => simp at h
  next f hg =>
    split at h
    next hle =>
      rw [List.getElem?_eq_none hle] at hg
      simp at hg
    next hle =>
      simp only [Except.ok.injEq] at h
      exact ⟨by omega, f, hg, h.symm⟩

theorem step_finding_ok {env : Env} {st st' : GraphState}
    (h : step_finding env st = .ok st') :
    st.current_index < st.findings.length ∧
    ∃ f, st.findings[st.current_index]? = some f ∧
      st' = { st with
        analyzed_findings := st.analyzed_findings ++
          [process_finding env st.source_path st.project (triaged_finding env f)]
        current_index := st.current_index + 1 } := by
  unfold step_finding at h
  cases ht : node_triage env st with
  | error e => rw [ht] at h; exact absurd h (by simp)
  | ok s1 =>
    rw [ht] at h
    obtain ⟨hlt, f, hf, hs1⟩ := node_triage_ok ht
    refine ⟨hlt, f, hf, ?_⟩
    simp only [Except.ok.injEq] at h
    subst hs1
    simp only [node_red_team, node_remediate, node_sanity_check, node_publish,
      mapLast_concat, process_finding] at h ⊢
    exact h.symm

theorem step_finding_err {env : Env} {st : GraphState}
    (h : st.findings.length ≤ st.current_index) :
    step_finding env st = .error () := by
  unfold step_finding
  rw [node_triage_oob h]

/-- The compiled graph run: repeat `step_finding` until `should_continue`
says `END`.  The entry point runs `triage` unconditionally once. -/
def run_workflow (env : Env) (st : GraphState) : Except Unit GraphState :=
  match h : step_finding env st with
  | .error e => .error e
  | .ok st' =>
    match should_continue st' with
    | .finish => .ok st'
    | .to_triage => run_workflow env st'
termination_by st.findings.length - st.current_index
decreasing_by
  obtain ⟨hlt, f, hf, hst⟩ := step_finding_ok h
  subst hst
  simp only []
  omega

/-! ## Structural lemmas about the loop -/

theorem mapLast_eq_self {α : Type} {g : α → α} :
    ∀ {l : List α} {x : α}, l.getLast? = some x → g x = x → mapLast g l = l := by
  intro l
  induction l with
  | nil => intro x hx; simp at hx
  | cons a as ih =>
    intro x hx hgx
    cases as with
    | nil =>
      simp at hx
      subst hx
      simp [mapLast, hgx]
    | cons b bs =>
      rw [List.getLast?_cons_cons] at hx
      simp only [mapLast]
      rw [ih hx hgx]

theorem step_finding_succeeds {env : Env} {st : GraphState}
    (h : st.current_index < st.findings.length) :
    ∃ st', step_finding env st = .ok st' := by
  unfold step_finding
  cases ht : node_triage env st with
  | error e =>
    exfalso
    unfold node_triage at ht
    rw [List.getElem?_eq_getElem h] at ht
    simp at ht
    split at ht
    · simp at ht
    · simp at ht
  | ok s1 => exact ⟨_, rfl⟩

theorem run_workflow_step {env : Env} {st st' : GraphState}
    (hstep : step_finding env st = .ok st') :
    run_workflow env st =
      match should_continue st' with
      | .finish => .ok st'
      | .to_triage => run_workflow env st' := by
  conv_lhs => rw [run_workflow]
  split
  next e he => rw [hstep] at he; simp at he
  next s2 hs2 =>
    rw [hstep] at hs2
    simp only [Except.ok.injEq] at hs2
    subst hs2
    rfl

theorem run_workflow_of_step_err {env : Env} {st : GraphState}
    (hstep : step_finding env st = .error ()) :
    run_workflow env st = .error () := by
  conv_lhs => rw [run_workflow]
  split
  next e he => rfl
  next s2 hs2 => rw [hstep] at hs2; simp at hs2

/-- The graph performs exactly one iteration per finding: starting anywhere
inside the list, the loop runs to the end, appending one analyzed record per
iteration. -/
theorem run_workflow_processes (env : Env) :
    ∀ n st, st.findings.length - st.current_index = n →
      st.analyzed_findings.length = st.current_index →
      st.current_index < st.findings.length →
      ∃ fin, run_workflow env st = .ok fin ∧ fin.findings = st.findings ∧
        fin.current_index = st.findings.length ∧
        fin.analyzed_findings.length = st.findings.length := by
  intro n
  induction n using Nat.strong_induction_on with
  | _ n ih =>
    intro st hn hinv hlt
    obtain ⟨st', hstep⟩ := step_finding_succeeds hlt
    obtain ⟨_, f, hf, hshape⟩ := step_finding_ok hstep
    rw [run_workflow_step hstep]
    by_cases hend : st.findings.length ≤ st.current_index + 1
    · have hsc : should_continue st' = .finish := by
        unfold should_continue
        rw [if_pos (by rw [hshape]; simpa using hend)]
      rw [hsc]
      refine ⟨st', rfl, ?_, ?_, ?_⟩
      · rw [hshape]
      · rw [hshape]; simp; omega
      · rw [hshape]; simp [hinv]; omega
    · have hsc : should_continue st' = .to_triage := by
        unfold should_continue
        rw [if_neg (by rw [hshape]; simpa using hend)]
      rw [hsc]
      obtain ⟨fin, hrun, hfins, hci, hlen⟩ :=
        ih (st'.findings.length - st'.current_index)
          (by rw [hshape]; simp; omega)
          st' rfl
          (by rw [hshape]; simp [hinv])
          (by rw [hshape]; simp; omega)
      refine ⟨fin, hrun, ?_, ?_, ?_⟩
      · rw [hfins, hshape]
      · rw [hci, hshape]
      · rw [hlen, hshape]

/-! ## The pr_url / remediation_patch invariant -/

/-- Section 3 invariant: a finding with no remediation patch carries no PR URL. -/
def pr_inv (f : Finding) : Prop := f.pr_url ≠ none → f.remediation_patch ≠ none

/-- Workflow-state invariant: all processed findings satisfy `pr_inv` and no
unprocessed finding (fresh from the normalizer) carries a PR URL yet. -/
def wf_inv (st : GraphState) : Prop :=
  (∀ f ∈ st.analyzed_findings, pr_inv f) ∧ ∀ f ∈ st.findings, f.pr_url = none

theorem red_team_finding_pr_url (env : Env) (src : Str) (f : Finding) :
    (red_team_finding env src f).pr_url = f.pr_url := by
  unfold red_team_finding
  split
  · split <;> rfl
  · rfl

theorem remediate_finding_pr_url (env : Env) (f : Finding) :
    (remediate_finding env f).pr_url = f.pr_url := by
  unfold remediate_finding
  split
  · split <;> rfl
  · rfl

theorem sanity_finding_pr_url (f : Finding) :
    (sanity_finding f).pr_url = f.pr_url := by
  unfold sanity_finding
  split
  · rfl
  · split
    · rfl
    · dsimp only
      split <;> rfl

theorem publish_finding_patch (env : Env) (proj : Str) (f : Finding) :
    (publish_finding env proj f).remediation_patch = f.remediation_patch := by
  unfold publish_finding
  split
  · rfl
  · split
    · rfl
    · split <;> rfl

theorem publish_finding_inv (env : Env) (proj : Str) (f : Finding)
    (h : pr_inv f) : pr_inv (publish_finding env proj f) := by
  unfold publish_finding
  split
  next => exact h
  next patch hp =>
    split
    · exact h
    · split
      next url hurl =>
        intro _
        simp only [hp]
        exact Option.some_ne_none patch
      next => exact h

theorem process_finding_inv (env : Env) (src proj : Str) (x : Finding)
    (hx : x.pr_url = none) : pr_inv (process_finding env src proj x) := by
  unfold process_finding
  apply publish_finding_inv
  intro hurl
  exfalso
  apply hurl
  rw [sanity_finding_pr_url, remediate_finding_pr_url, red_team_finding_pr_url]
  exact hx

theorem step_preserves_wf_inv {env : Env} {st st' : GraphState}
    (hw : wf_inv st) (h : step_finding env st = .ok st') : wf_inv st' := by
  obtain ⟨_, f, hf, hshape⟩ := step_finding_ok h
  have hfmem : f ∈ st.findings := List.getElem?_mem hf
  subst hshape
  constructor
  · intro g hg
    simp only [List.mem_append, List.mem_singleton] at hg
    rcases hg with hg | hg
    · exact hw.1 g hg
    · subst hg
      apply process_finding_inv
      exact hw.2 f hfmem
  · intro g hg
    exact hw.2 g hg

theorem run_preserves_wf_inv (env : Env) :
    ∀ n st, st.findings.length - st.current_index = n → wf_inv st →
      ∀ fin, run_workflow env st = .ok fin →
        ∀ f ∈ fin.analyzed_findings, pr_inv f := by
  intro n
  induction n using Nat.strong_induction_on with
  | _ n ih =>
    intro st hn hw fin hrun
    cases hstep : step_finding env st with
    | error e =>
      cases e
      rw [run_workflow_of_step_err hstep] at hrun
      simp at hrun
    | ok st' =>
      have hw' : wf_inv st' := step_preserves_wf_inv hw hstep
      obtain ⟨hlt, f, hf, hshape⟩ := step_finding_ok hstep
      rw [run_workflow_step hstep] at hrun
      cases hsc : should_continue st' with
      | finish =>
        rw [hsc] at hrun
        simp only [Except.ok.injEq] at hrun
        subst hrun
        exact hw'.1
      | to_triage =>
        rw [hsc] at hrun
        exact ih (st'.findings.length - st'.current_index)
          (by rw [hshape]; simp; omega) st' rfl hw' fin hrun

/-! ## Sample environment and states used by the concrete witnesses -/

/-- An environment in which every external call fails (LLM errors, sandbox
errors, PR creation raises). -/
def envNone : Env where
  triage_llm _ := none
  red_team _ _ := none
  remediate_llm _ := none
  create_pr _ _ _ := .error (str "boom")

/-- A minimal normalizer finding. -/
def sampleFinding : Finding :=
  { file := str "app.py", message := str "sqli", snippet := str "q = f-string" }

/-- Initial workflow state over one finding. -/
def sampleState : GraphState :=
  { findings := [sampleFinding], current_index := 0, analyzed_findings := []
    source_path := str "/tmp/scans/x", project := str "o/r" }

/-! ## Claims C1, C9, C10 -/

/-- Claim C1: a non-null `pr_url` implies a non-null `remediation_patch` for
every finding at every iteration boundary of the workflow and at its end; in
particular `node_publish` returns the state unchanged (no PR attempted, no
`pr_url` set) whenever the current finding's `remediation_patch` is null or
the empty string. -/
theorem claim_C1 (env : Env) (st : GraphState) :
    (∀ f, st.analyzed_findings.getLast? = some f →
        f.remediation_patch = none ∨ f.remediation_patch = some [] →
        node_publish env st = st) ∧
    (wf_inv st → ∀ st', step_finding env st = .ok st' → wf_inv st') ∧
    (wf_inv st → ∀ fin, run_workflow env st = .ok fin →
        ∀ f ∈ fin.analyzed_findings, pr_inv f) := by
  refine ⟨?_, ?_, ?_⟩
  · intro f hl hp
    unfold node_publish
    rw [mapLast_eq_self hl ?_]
    · rcases hp with hp | hp <;>
        (unfold publish_finding; rw [hp]) <;> rfl
  · intro hw st' hstep
    exact step_preserves_wf_inv hw hstep
  · intro hw fin hrun
    exact run_preserves_wf_inv env _ st rfl hw fin hrun

/-- Concrete instantiation of C1: the publish node skips a finding whose
patch was nulled. -/
def patchlessState : GraphState :=
  { sampleState with analyzed_findings := [sampleFinding] }

theorem claim_C1_witness :
    node_publish envNone patchlessState = patchlessState :=
  (claim_C1 envNone patchlessState).1 sampleFinding (by decide) (Or.inl (by decide))

/-- Claim C9 (implicit): `node_triage` reads `findings[current_index]` before
its bounds guard, so on an out-of-range index — in particular on an empty
findings list — it raises `IndexError`, and the workflow run terminates
abnormally at the entry node. -/
theorem claim_C9 (env : Env) (st : GraphState) :
    (st.findings.length ≤ st.current_index → node_triage env st = .error ()) ∧
    (st.findings = [] → st.current_index = 0 → run_workflow env st = .error ()) := by
  constructor
  · intro h
    exact node_triage_oob h
  · intro hnil hz
    apply run_workflow_of_step_err
    apply step_finding_err
    rw [hnil, hz]
    simp

/-- The workflow state of a scan whose normalizer produced zero findings. -/
def emptyState : GraphState :=
  { findings := [], current_index := 0, analyzed_findings := []
    source_path := str "/tmp/scans/x", project := str "o/r" }

theorem claim_C9_witness : run_workflow envNone emptyState = .error () :=
  (claim_C9 envNone emptyState).2 rfl rfl

/-- Claim C10 (implicit): every pass appends exactly one analyzed record and
increments `current_index` by one, preserving `len(analyzed) == index`;
`should_continue` returns END exactly when the index reaches the findings
count; from a fresh state over a non-empty findings list the loop therefore
performs exactly `len(findings)` iterations and terminates. -/
theorem claim_C10 (env : Env) (st : GraphState) :
    (should_continue st = .finish ↔ st.findings.length ≤ st.current_index) ∧
    (∀ st', step_finding env st = .ok st' →
        st'.analyzed_findings.length = st.analyzed_findings.length + 1 ∧
        st'.current_index = st.current_index + 1 ∧
        (st.analyzed_findings.length = st.current_index →
          st'.analyzed_findings.length = st'.current_index)) ∧
    (st.analyzed_findings = [] → st.current_index = 0 → st.findings ≠ [] →
        ∃ fin, run_workflow env st = .ok fin ∧
          fin.current_index = st.findings.length ∧
          fin.analyzed_findings.length = st.findings.length) := by
  refine ⟨?_, ?_, ?_⟩
  · unfold should_continue
    split
    next h => simp [h]
    next h => simp [h]
  · intro st' hstep
    obtain ⟨hlt, f, hf, hshape⟩ := step_finding_ok hstep
    subst hshape
    refine ⟨by simp, by simp, ?_⟩
    intro hinv
    simp [hinv]
  · intro hnil hz hne
    have hlt : st.current_index < st.findings.length := by
      rw [hz]
      cases hfl : st.findings with
      | nil => exact absurd hfl hne
      | cons a l => simp
    obtain ⟨fin, hrun, _, hci, hlen⟩ :=
      run_workflow_processes env _ st rfl (by rw [hnil, hz]; rfl) hlt
    exact ⟨fin, hrun, hci, hlen⟩

theorem claim_C10_witness :
    should_continue { sampleState with current_index := 1 } = Route.finish :=
  ((claim_C10 envNone { sampleState with current_index := 1 }).1).mpr (by decide)

/-! ## Claim C5: the triage verdict -/

/-- Modelled from the spec's words (§4.7 TRIAGE): the raw response is
normalized by stripping non-letters and uppercasing; classification:
contains "TP" ⇒ TP else FP; on any error from the model, FP. -/
def spec_triage_verdict (resp : Option Str) : Str :=
  match resp with
  | none => str "FP"
  | some content =>
    let normalized := (content.filter Char.isAlpha).map Char.toUpper
    if occursIn (str "TP") normalized then str "TP" else str "FP"

/-- Claim C5: the verdict is computed by stripping non-letters, uppercasing
and testing for the substring "TP" (FP on model error), and the `ai_verdict`
stored on every triaged finding is exactly one of TP / FP. -/
theorem claim_C5 (env : Env) (st : GraphState) :
    (∀ resp, triage_verdict resp = spec_triage_verdict resp) ∧
    (∀ resp, triage_verdict resp = str "TP" ∨ triage_verdict resp = str "FP") ∧
    (∀ f, (triaged_finding env f).ai_verdict =
        some (triage_verdict (env.triage_llm f))) ∧
    (∀ st', node_triage env st = .ok st' →
        ∀ g, st'.analyzed_findings.getLast? = some g →
          g.ai_verdict = some (str "TP") ∨ g.ai_verdict = some (str "FP")) := by
  have hv : ∀ resp, triage_verdict resp = str "TP" ∨ triage_verdict resp = str "FP" := by
    intro resp
    unfold triage_verdict
    cases resp with
    | none => exact Or.inr rfl
    | some c =>
      dsimp only
      split
      · exact Or.inl rfl
      · exact Or.inr rfl
  refine ⟨?_, hv, fun f => rfl, ?_⟩
  · intro resp
    unfold triage_verdict spec_triage_verdict
    cases resp <;> rfl
  intro st' hok g hg
  obtain ⟨hlt, f, hf, hshape⟩ := node_triage_ok hok
  subst hshape
  rw [List.getLast?_concat] at hg
  simp only [Option.some.injEq] at hg
  subst hg
  rcases hv (env.triage_llm f) with h | h <;>
    [exact Or.inl (by rw [triaged_finding, h]); exact Or.inr (by rw [triaged_finding, h])]

theorem claim_C5_witness :
    (triaged_finding envNone sampleFinding).ai_verdict = some (str "TP") ∨
    (triaged_finding envNone sampleFinding).ai_verdict = some (str "FP") :=
  (claim_C5 envNone sampleState).2.2.2
    { sampleState with
      analyzed_findings := [triaged_finding envNone sampleFinding]
      current_index := 1 }
    (by rfl) (triaged_finding envNone sampleFinding) (by rfl)

/-! ## Claim C2: the sanity check -/

/-- The claim's rejection condition, modelled from its words: some critical
token occurs in the snippet and none occurs in the patch, or the patch is
whitespace-empty, or the snippet has more than 10 lines and the patch fewer
than 2. -/
def sanity_rejects_claim (s p : Str) : Prop :=
  ((∃ w ∈ CRITICAL_MODULES, occursIn w s = true) ∧
      ∀ w ∈ CRITICAL_MODULES, occursIn w p = false) ∨
    pstrip p = [] ∨ (countLines p < 2 ∧ 10 < countLines s)

/-- The code's rejection condition (`node_sanity_check`): some critical token
occurs in the snippet but not in the patch (other critical tokens may well
occur in the patch), or the patch is whitespace-empty, or the snippet has
more than 10 lines and the patch fewer than 2. -/
def sanity_rejects_code (s p : Str) : Prop :=
  (∃ w ∈ CRITICAL_MODULES, occursIn w s = true ∧ occursIn w p = false) ∨
    pstrip p = [] ∨ (countLines p < 2 ∧ 10 < countLines s)

instance (s p : Str) : Decidable (sanity_rejects_code s p) := by
  unfold sanity_rejects_code
  infer_instance

instance (s p : Str) : Decidable (sanity_rejects_claim s p) := by
  unfold sanity_rejects_claim
  infer_instance

/-- A finding whose snippet mentions `auth` while the model's patch keeps
`jwt` but drops `auth`. -/
def cexFinding : Finding :=
  { sampleFinding with
    snippet := str "import auth"
    remediation_patch := some (str "jwt") }

def cexState : GraphState := { sampleState with analyzed_findings := [cexFinding] }

/-- Counterexample to C2 as stated: the claim's condition does not hold on
this finding (a critical token does occur in the patch), so the claim says
the patch is left unchanged — yet the code nulls it, because a token of the
snippet (`auth`) is missing from the patch. -/
theorem claim_C2_cex :
    ¬ sanity_rejects_claim (str "import auth") (str "jwt") ∧
    cexFinding.snippet = str "import auth" ∧
    cexFinding.remediation_patch = some (str "jwt") ∧
    (node_sanity_check cexState).analyzed_findings =
      [{ cexFinding with remediation_patch := none }] := by
  refine ⟨by decide, rfl, rfl, by decide⟩

theorem sanity_finding_char (f : Finding) :
    (∀ p, f.remediation_patch = some p → p ≠ [] →
      sanity_finding f =
        if sanity_rejects_code f.snippet p then { f with remediation_patch := none }
        else f) ∧
    ((f.remediation_patch = none ∨ f.remediation_patch = some []) →
      sanity_finding f = f) := by
  constructor
  · intro p hp hne
    unfold sanity_finding
    rw [hp]
    dsimp only
    rw [if_neg (by simpa using hne)]
    have hdel :
        (CRITICAL_MODULES.filter (fun w => occursIn w f.snippet && !(occursIn w p)) ≠ [])
          ↔ ∃ w ∈ CRITICAL_MODULES, occursIn w f.snippet = true ∧ occursIn w p = false := by
      rw [Ne, List.filter_eq_nil_iff]
      push_neg
      constructor
      · rintro ⟨w, hw, hcond⟩
        refine ⟨w, hw, ?_, ?_⟩ <;> revert hcond <;>
          cases hs : occursIn w f.snippet <;> cases hpp : occursIn w p <;> simp
      · rintro ⟨w, hw, h1, h2⟩
        exact ⟨w, hw, by rw [h1, h2]; rfl⟩
    by_cases hr : sanity_rejects_code f.snippet p
    · rw [if_pos hr, if_pos ?_]
      unfold sanity_rejects_code at hr
      rcases hr with hr | hr
      · exact Or.inl (hdel.mpr hr)
      · exact Or.inr hr
    · rw [if_neg hr, if_neg ?_]
      unfold sanity_rejects_code at hr
      intro hc
      apply hr
      rcases hc with hc | hc
      · exact Or.inl (hdel.mp hc)
      · exact Or.inr hc
  · intro hp
    unfold sanity_finding
    rcases hp with hp | hp <;> rw [hp]
    rfl

theorem mapLast_congr {α : Type} {g1 g2 : α → α} :
    ∀ {l : List α} {x : α}, l.getLast? = some x → g1 x = g2 x →
      mapLast g1 l = mapLast g2 l := by
  intro l
  induction l with
  | nil => intro x hx; simp at hx
  | cons a as ih =>
    intro x hx hgx
    cases as with
    | nil =>
      simp at hx
      subst hx
      simp [mapLast, hgx]
    | cons b bs =>
      rw [List.getLast?_cons_cons] at hx
      simp only [mapLast]
      rw [ih hx hgx]

/-- Claim C2, amended: a null or empty-string patch is left untouched by the
sanity node; a non-empty patch is nulled exactly when some critical token of
the snippet is missing from the patch, or the patch is whitespace-only, or
the mass-deletion heuristic fires — and otherwise left unchanged. -/
theorem claim_C2 (st : GraphState) :
    ∀ f, st.analyzed_findings.getLast? = some f →
      ((f.remediation_patch = none ∨ f.remediation_patch = some []) →
          node_sanity_check st = st) ∧
      (∀ p, f.remediation_patch = some p → p ≠ [] →
        (sanity_rejects_code f.snippet p →
            node_sanity_check st =
              { st with analyzed_findings :=
                  (mapLast (fun g => { g with remediation_patch := none })
                    st.analyzed_findings) }) ∧
        (¬ sanity_rejects_code f.snippet p → node_sanity_check st = st)) := by
  intro f hl
  obtain ⟨hsome, hfalsy⟩ := sanity_finding_char f
  refine ⟨?_, ?_⟩
  · intro hp
    unfold node_sanity_check
    rw [mapLast_eq_self hl (hfalsy hp)]
  · intro p hp hne
    have hchar := hsome p hp hne
    constructor
    · intro hr
      unfold node_sanity_check
      rw [mapLast_congr hl (by rw [hchar, if_pos hr])]
    · intro hr
      unfold node_sanity_check
      rw [mapLast_eq_self hl (by rw [hchar, if_neg hr])]

/-- A finding whose patch passes every sanity heuristic. -/
def passFinding : Finding :=
  { sampleFinding with remediation_patch := some (str "fixed code") }

def passState : GraphState := { sampleState with analyzed_findings := [passFinding] }

theorem claim_C2_witness : node_sanity_check passState = passState :=
  ((claim_C2 passState passFinding (by decide)).2 (str "fixed code")
    (by decide) (by decide)).2 (by decide)

/-! ## Claim C4: publisher failure handling -/

/-- An environment whose LLM always answers TP, remediates, and whose
hosting API always raises on PR creation. -/
def envTP : Env where
  triage_llm _ := some (str "TP")
  red_team _ _ := some (true, str "poc ok")
  remediate_llm _ := some (str "sanitized code")
  create_pr _ _ _ := .error (str "github 403")

/-- A finding entering publish with a verified patch. -/
def pubFinding : Finding :=
  { sampleFinding with
    ai_verdict := some (str "TP")
    remediation_patch := some (str "patched") }

def pubState : GraphState := { sampleState with analyzed_findings := [pubFinding] }

/-- Claim C4 evaluated at the failing input: `create_security_pr` raises, the
workflow catches the error and continues with the next finding, but — against
the claim — nothing is recorded in `pr_error`: the finding (and the whole
state) is left unchanged. -/
theorem claim_C4 :
    (envTP.create_pr pubState.project pubFinding (str "patched")).isOk = false ∧
    node_publish envTP pubState = pubState ∧
    ((node_publish envTP pubState).analyzed_findings.getLast?.map
        Finding.pr_error) = some none ∧
    ((node_publish envTP pubState).analyzed_findings.getLast?.map
        Finding.pr_url) = some none ∧
    (step_finding envTP sampleState).isOk = true := by
  decide

/-! ## Claim C7: `_clean_path` (`services/scanner/core/parser.py`) -/

/-- Python `path.startswith("file://")`. -/
def starts_file_scheme (s : Str) : Bool :=
  match s with
  | 'f' :: 'i' :: 'l' :: 'e' :: ':' :: '/' :: '/' :: _ => true
  | _ => false

/-- Python `path.replace("file://", "")`: left-to-right removal of every
occurrence. -/
def remove_file_scheme : Str → Str
  | 'f' :: 'i' :: 'l' :: 'e' :: ':' :: '/' :: '/' :: rest => remove_file_scheme rest
  | c :: rest => c :: remove_file_scheme rest
  | [] => []

/-- Pattern tail after the kind segment: a nonempty run of non-separators
followed by a separator (the scan id directory). -/
def after_seg (rest : Str) : Option Str :=
  let run := rest.takeWhile (fun c => c ≠ '/')
  if run.isEmpty then none
  else
    match rest.drop run.length with
    | c :: r => if c = '/' then some r else none
    | [] => none

/-- Kind segment after the leading directory component. -/
def strip_kind (s : Str) : Option Str :=
  if (str "scans/").isPrefixOf s then after_seg (s.drop 6)
  else if (str "uploads/").isPrefixOf s then after_seg (s.drop 8)
  else none

/-- The anchored substitution of `_clean_path`: `some` is a match
(returning the suffix after the matched prefix), `none` no match. -/
def strip_tmp (s : Str) : Option Str :=
  if (str "/tmp/").isPrefixOf s then strip_kind (s.drop 5) else none

/-- Function `_clean_path` of `parser.py`: empty in, empty out; strip the `file://`
scheme when the path starts with it; strip one `/tmp/(scans|uploads)/<id>/`
prefix; strip all leading separators. -/
def _clean_path (path : Str) : Str :=
  if path.isEmpty then []
  else
    let p1 := if starts_file_scheme path then remove_file_scheme path else path
    let cleaned :=
      match strip_tmp p1 with
      | some r => r
      | none => p1
    if cleaned.head? = some '/' then cleaned.dropWhile (fun c => c = '/') else cleaned

example : _clean_path (str "/tmp/scans/ab12_src/app/main.py") = str "app/main.py" := by decide
example : _clean_path (str "file:///tmp/uploads/u1/x.py") = str "x.py" := by decide
example : _clean_path (str "//weird") = str "weird" := by decide
example : _clean_path (str "a/b.py") = str "a/b.py" := by decide

/-- Counterexample to C7 as stated: cleaning is not idempotent.  Stripping
the `/tmp/scans/<id>/` prefix can expose an embedded `file://` scheme, which
only a second pass removes. -/
theorem claim_C7_cex :
    _clean_path (str "/tmp/scans/a/file://x") = str "file://x" ∧
    _clean_path (_clean_path (str "/tmp/scans/a/file://x")) = str "x" ∧
    _clean_path (_clean_path (str "/tmp/scans/a/file://x")) ≠
      _clean_path (str "/tmp/scans/a/file://x") := by
  refine ⟨by decide, by decide, by decide⟩

theorem dropWhile_head_not {p : Char → Bool} :
    ∀ l : List Char, ∀ c, (l.dropWhile p).head? = some c → p c = false := by
  intro l
  induction l with
  | nil => intro c hc; simp at hc
  | cons a as ih =>
    intro c hc
    rw [List.dropWhile_cons] at hc
    split at hc
    · exact ih c hc
    next h =>
      simp only [List.head?_cons, Option.some.injEq] at hc
      subst hc
      simpa using h

theorem clean_tail_no_sep (q : Str) :
    (if q.head? = some '/' then q.dropWhile (fun c => c = '/') else q).head? ≠
      some '/' := by
  by_cases h : q.head? = some '/'
  · rw [if_pos h]
    intro hc
    have := dropWhile_head_not _ _ hc
    simp at this
  · rw [if_neg h]
    exact h

theorem _clean_path_no_sep (p : Str) : (_clean_path p).head? ≠ some '/' := by
  unfold _clean_path
  split
  · simp
  · dsimp only
    exact clean_tail_no_sep _

theorem beq_sep_false {a : Char} (h : ¬ a = '/') : (('/' : Char) == a) = false := by
  rw [beq_eq_false_iff_ne]
  intro heq
  exact h heq.symm

theorem not_sep_not_tmp {s : Str} (h : s.head? ≠ some '/') :
    ((str "/tmp/scans/").isPrefixOf s = false ∧
     (str "/tmp/uploads/").isPrefixOf s = false) := by
  cases s with
  | nil => exact ⟨rfl, rfl⟩
  | cons a t =>
    simp only [List.head?_cons, ne_eq, Option.some.injEq] at h
    constructor <;>
      · show (('/' :: _ : Str).isPrefixOf (a :: t)) = false
        rw [List.isPrefixOf_cons₂, beq_sep_false h, Bool.false_and]

theorem strip_tmp_none {s : Str} (h : s.head? ≠ some '/') : strip_tmp s = none := by
  unfold strip_tmp
  rw [if_neg ?_]
  cases s with
  | nil => simp [str, List.isPrefixOf]
  | cons a t =>
    simp only [List.head?_cons, ne_eq, Option.some.injEq] at h
    show ¬ (('/' :: _ : Str).isPrefixOf (a :: t)) = true
    rw [List.isPrefixOf_cons₂, beq_sep_false h, Bool.false_and]
    simp

/-- A path that neither starts with a separator nor with the `file://`
scheme is a fixed point of `_clean_path`. -/
theorem _clean_path_fixed {q : Str} (hsep : q.head? ≠ some '/')
    (hfs : starts_file_scheme q = false) : _clean_path q = q := by
  cases q with
  | nil => rfl
  | cons a t =>
    unfold _clean_path
    rw [if_neg (by simp)]
    dsimp only
    rw [hfs]
    simp only [Bool.false_eq_true, if_false]
    rw [strip_tmp_none hsep]
    dsimp only
    rw [if_neg hsep]

/-- Claim C7, amended: `_clean_path` never returns a path beginning with a
separator (hence never one beginning with `/tmp/scans/` or `/tmp/uploads/`),
and it is idempotent on every input whose cleaned form does not itself begin
with the `file://` scheme (stripping the `/tmp/...` prefix can expose an
embedded scheme, the one non-idempotent case). -/
theorem claim_C7 (p : Str) :
    (_clean_path p).head? ≠ some '/' ∧
    (str "/tmp/scans/").isPrefixOf (_clean_path p) = false ∧
    (str "/tmp/uploads/").isPrefixOf (_clean_path p) = false ∧
    (starts_file_scheme (_clean_path p) = false →
      _clean_path (_clean_path p) = _clean_path p) := by
  have hsep := _clean_path_no_sep p
  obtain ⟨h1, h2⟩ := not_sep_not_tmp hsep
  refine ⟨hsep, h1, h2, ?_⟩
  intro hfs
  exact _clean_path_fixed hsep hfs

theorem claim_C7_witness :
    _clean_path (_clean_path (str "file:///tmp/uploads/u1/x.py")) =
      _clean_path (str "file:///tmp/uploads/u1/x.py") :=
  (claim_C7 (str "file:///tmp/uploads/u1/x.py")).2.2.2 (by decide)

/-! ## Claim C6: snippet population (`services/common/core/utils.py`) -/

/-- Outcome of looking up and reading `source_root + file` for a finding:
the file may be absent (`os.path.exists` false), reading it may raise, or it
yields its list of lines (`readlines`, newline terminators included). -/
inductive FileRead
  | absent
  | read_error
  | content (lines : List Str)
deriving DecidableEq, Repr

def snippet_not_found : Str := str "⚠️ Source code not found on local Fedora disk."
def snippet_empty_file : Str := str "⚠️ File is empty."
def snippet_window_empty : Str := str "⚠️ Snippet is empty."

/-- Function `populate_snippets` of `utils.py`, per finding: the default placeholder
is set first (so both a missing file and a read error keep it); an existing
readable file yields either the empty-file placeholder, the ±5-line window
`lines[max(0, line-1-5) : min(len(lines), line-1+5)]`, or — when that window
joins to whitespace only — the empty-snippet placeholder.  `line` is
`int(f.get("line", 1))`; `none` models an absent key. -/
def populate_snippet : FileRead → Option Int → Str
  | .absent, _ => snippet_not_found
  | .read_error, _ => snippet_not_found
  | .content lines, line =>
    if lines.isEmpty then snippet_empty_file
    else
      let actual : Int := line.getD 1 - 1
      let start : Int := max 0 (actual - 5)
      let stop : Int := min (lines.length : Int) (actual + 5)
      let snip := (pySlice lines start stop).join
      if (pstrip snip).isEmpty then snippet_window_empty else snip

/-- Modelled from the claim's words: clamp the 1-based reported line to the
file's length, then extract the ±5-line window around the clamped line. -/
def populate_snippet_claim : FileRead → Option Int → Str
  | .absent, _ => snippet_not_found
  | .read_error, _ => snippet_not_found
  | .content lines, line =>
    if lines.isEmpty then snippet_empty_file
    else
      let clamped : Int := min (max (line.getD 1) 1) (lines.length : Int)
      let actual : Int := clamped - 1
      let start : Int := max 0 (actual - 5)
      let stop : Int := min (lines.length : Int) (actual + 5)
      let snip := (pySlice lines start stop).join
      if (pstrip snip).isEmpty then snippet_window_empty else snip

example : populate_snippet (.content [str "a\n", str "b\n"]) (some 1) = str "a\nb\n" := by
  decide
example : populate_snippet (.content [str "a\n"]) (some 0) = str "a\n" := by decide
example : populate_snippet .absent (some 3) = snippet_not_found := by decide

/-- Counterexample to C6 as stated: the code does not clamp the reported
line.  On a one-line file with reported line 20 the claimed (clamped)
behavior returns the line, while the code's window is empty and yields the
empty-snippet placeholder. -/
theorem claim_C6_cex :
    populate_snippet (.content [str "x\n"]) (some 20) = snippet_window_empty ∧
    populate_snippet_claim (.content [str "x\n"]) (some 20) = str "x\n" ∧
    populate_snippet (.content [str "x\n"]) (some 20) ≠
      populate_snippet_claim (.content [str "x\n"]) (some 20) := by
  refine ⟨by decide, by decide, by decide⟩

theorem pstrip_nil : pstrip ([] : Str) = [] := rfl

/-- Claim C6, amended: snippet population opens `source_root + file`; the
reported line is not clamped — the window is
`lines[max(0, line-6) : min(len, line+4)]`, and a line more than five past
the end of the file yields the empty-window placeholder; empty files, empty
or all-whitespace windows give their own placeholders, while missing files
and read errors share the not-found placeholder; every finding ends up with
a nonempty snippet. -/
theorem claim_C6 (fr : FileRead) (line : Option Int) :
    (populate_snippet fr line ≠ []) ∧
    (fr = .absent ∨ fr = .read_error → populate_snippet fr line = snippet_not_found) ∧
    (∀ lines, fr = .content lines → lines = [] →
        populate_snippet fr line = snippet_empty_file) ∧
    (∀ lines, fr = .content lines → lines ≠ [] →
        (lines.length : Int) + 5 < line.getD 1 →
        populate_snippet fr line = snippet_window_empty) ∧
    (∀ lines, fr = .content lines → lines ≠ [] →
        populate_snippet fr line =
          (let w := (pySlice lines (max 0 (line.getD 1 - 6))
              (min (lines.length : Int) (line.getD 1 + 4))).join
           if (pstrip w).isEmpty then snippet_window_empty else w)) := by
  refine ⟨?_, ?_, ?_, ?_, ?_⟩
  · cases fr with
    | absent => exact (by decide : snippet_not_found ≠ ([] : Str))
    | read_error => exact (by decide : snippet_not_found ≠ ([] : Str))
    | content lines =>
      simp only [populate_snippet]
      split
      · exact (by decide : snippet_empty_file ≠ ([] : Str))
      · split
        · exact (by decide : snippet_window_empty ≠ ([] : Str))
        next hfull =>
          intro hnil
          rw [hnil, pstrip_nil] at hfull
          exact hfull rfl
  · rintro (h | h) <;> rw [h] <;> rfl
  · intro lines hfr hnil
    subst hfr
    simp only [populate_snippet]
    rw [if_pos (by simp [hnil])]
  · intro lines hfr hne hfar
    subst hfr
    simp only [populate_snippet]
    rw [if_neg (by simpa using hne)]
    have hslice :
        pySlice lines (max 0 (line.getD 1 - 1 - 5))
          (min (lines.length : Int) (line.getD 1 - 1 + 5)) = [] := by
      unfold pySlice
      apply List.drop_eq_nil_of_le
      have hidx : pyIdx lines.length (max 0 (line.getD 1 - 1 - 5)) = lines.length := by
        unfold pyIdx
        rw [if_neg (by omega)]
        omega
      rw [hidx, List.length_take]
      omega
    rw [hslice]
    simp [pstrip_nil]
  · intro lines hfr hne
    subst hfr
    simp only [populate_snippet]
    rw [if_neg (by simpa using hne)]
    have h1 : line.getD 1 - 1 - 5 = line.getD 1 - 6 := by omega
    have h2 : line.getD 1 - 1 + 5 = line.getD 1 + 4 := by omega
    rw [h1, h2]

theorem claim_C6_witness :
    populate_snippet (.content [str "x\n", str "y\n"]) (some 99) =
      snippet_window_empty :=
  (claim_C6 (.content [str "x\n", str "y\n"]) (some 99)).2.2.2.1
    [str "x\n", str "y\n"] rfl (by decide) (by decide)

/-! ## Claim C8: delta-mode Semgrep targets
(`services/scanner/core/scanner.py`, `SecurityScanner.run_scan`) -/

/-- Python `f.lstrip("/")`: strip leading separators from a changed-file path. -/
def sanitize_changed (f : Str) : Str := f.dropWhile (fun c => c = '/')

/-- Python `os.path.join(shared_src_dir, safe_f)` for a relative `safe_f`. -/
def path_join (d f : Str) : Str := d ++ '/' :: f

/-- The paths handed to Semgrep by `run_scan`: in delta mode the changed
files are sanitized, made absolute in the shared workspace and filtered by
existence (the loop over `changed_files`); if none survive — or outside
delta mode — the whole workspace directory is passed. -/
def semgrep_targets (shared : Str) (changed : List Str) (fs_exists : Str → Bool) :
    List Str :=
  if changed.isEmpty then [shared]
  else
    let target_files := changed.foldl
      (fun acc f =>
        let a := path_join shared (sanitize_changed f)
        if fs_exists a then acc ++ [a] else acc) []
    if target_files.isEmpty then [shared] else target_files

theorem semgrep_targets_foldl (shared : Str) (fs_exists : Str → Bool) :
    ∀ (l : List Str) (acc : List Str),
      l.foldl (fun acc f =>
        let a := path_join shared (sanitize_changed f)
        if fs_exists a then acc ++ [a] else acc) acc =
      acc ++ l.filterMap (fun f =>
        let a := path_join shared (sanitize_changed f)
        if fs_exists a then some a else none) := by
  intro l
  induction l with
  | nil => intro acc; simp
  | cons x xs ih =>
    intro acc
    simp only [List.foldl_cons, List.filterMap_cons]
    by_cases hx : fs_exists (path_join shared (sanitize_changed x))
    · simp only [hx, if_pos, ih]
      simp
    · simp only [hx, if_neg, ih]
      simp [hx]

/-- Claim C8: with a non-empty `changed_files` list, Semgrep is pointed at
exactly the sanitized absolute workspace paths of the changed files that
exist in the workspace, and at the full workspace when none of them does. -/
theorem claim_C8 (shared : Str) (changed : List Str) (fs_exists : Str → Bool)
    (hne : changed ≠ []) :
    semgrep_targets shared changed fs_exists =
      (let tf := changed.filterMap (fun f =>
          let a := path_join shared (sanitize_changed f)
          if fs_exists a then some a else none)
       if tf = [] then [shared] else tf) := by
  unfold semgrep_targets
  rw [if_neg (by simpa using hne)]
  rw [semgrep_targets_foldl]
  simp only [List.nil_append]
  by_cases h : changed.filterMap (fun f =>
      let a := path_join shared (sanitize_changed f)
      if fs_exists a then some a else none) = []
  · rw [if_pos (by simp [h]), if_pos h]
  · rw [if_neg (by simpa using h), if_neg h]

theorem claim_C8_witness :
    semgrep_targets (str "/tmp/scans/ab_src") [str "src/new.py"] (fun _ => false) =
      [str "/tmp/scans/ab_src"] := by
  rw [claim_C8 (str "/tmp/scans/ab_src") [str "src/new.py"] (fun _ => false)
    (by decide)]
  decide

/-! ## Claim C3: the scan coordinator and the readiness gate
(`services/orchestrator/core/logic.py`) -/

/-- Observable events of one scan job, in program order. -/
inductive ScanEv
  | scan_created
  | clone_attempted
  | detector_run
  | analyzer_invoked
  | reports_parsed
  | status_set (s : Str)
  | readiness_probe (ok : Bool)
  | workflow_invoked
  | workspace_removed
deriving DecidableEq, Repr

/-- Oracle for the external calls of `run_brain_background`:
did the AI services report ready within the 5-minute poll budget, did the
source preparation (clone / copy) succeed, and did the graph run and the DB
write-back succeed. -/
structure BrainEnv where
  services_ready : Bool
  prep_ok : Bool
  workflow_ok : Bool
deriving DecidableEq, Repr

/-- Oracle for the external calls of `perform_scan_background`. -/
structure ScanEnv where
  path_exists : Bool
  db_create_ok : Bool
  clone_needed : Bool
  clone_ok : Bool
  scanner_ok : Bool
  brain : BrainEnv
deriving DecidableEq, Repr

/-- Event trace of `run_brain_background` (logic.py lines 95-221): the
readiness gate runs first; on timeout the scan is marked failed and the
function returns — before the workspace is even created; otherwise source
prep, the graph invocation and the status write-back follow, with the
workspace removed on every late path. -/
def run_brain_trace (env : BrainEnv) : List ScanEv :=
  if env.services_ready = false then
    [.readiness_probe false, .status_set (str "failed")]
  else
    .readiness_probe true ::
      (if env.prep_ok = false then
        [.status_set (str "failed"), .workspace_removed]
      else
        .workflow_invoked ::
          (if env.workflow_ok then [.status_set (str "completed")]
           else [.status_set (str "failed")]) ++ [.workspace_removed])

/-- Event trace of `perform_scan_background` (logic.py lines 223-426): scan
row creation, optional clone, stack detection, the Scanner-service call
(which launches the analyzer tools), report parsing, the `analyzing` status,
then `run_brain_background`. -/
def perform_scan_trace (env : ScanEnv) : List ScanEv :=
  if env.path_exists = false then []
  else if env.db_create_ok = false then []
  else
    .scan_created ::
      (if env.clone_needed && !env.clone_ok then
        [.clone_attempted, .status_set (str "failed")]
      else
        (if env.clone_needed then [.clone_attempted] else []) ++
          [.detector_run, .analyzer_invoked] ++
          (if env.scanner_ok = false then [.status_set (str "failed")]
           else [.reports_parsed, .status_set (str "analyzing")] ++
             run_brain_trace env.brain))

/-- The last status written to the Scan row during a trace. -/
def last_status : List ScanEv → Option Str
  | [] => none
  | .status_set s :: rest =>
    match last_status rest with
    | some x => some x
    | none => some s
  | _ :: rest => last_status rest

/-- The environment of end-to-end scenario 6: everything works except that
the AI services never report ready. -/
def timeoutEnv : ScanEnv :=
  { path_exists := true, db_create_ok := true, clone_needed := true
    clone_ok := true, scanner_ok := true
    brain := { services_ready := false, prep_ok := true, workflow_ok := true } }

/-- Counterexample to C3 as stated: when the readiness poll times out the
scan does end `failed` and the AI workflow never runs — but the analyzer HAS
been launched, because `perform_scan_background` calls the Scanner service
before `run_brain_background` performs the readiness check. -/
theorem claim_C3_cex :
    last_status (perform_scan_trace timeoutEnv) = some (str "failed") ∧
    ScanEv.workflow_invoked ∉ perform_scan_trace timeoutEnv ∧
    ScanEv.analyzer_invoked ∈ perform_scan_trace timeoutEnv := by
  refine ⟨by decide, by decide, by decide⟩

/-- Claim C3, amended: if the dependent AI services do not all report ready
within the 5-minute budget, the scan is marked failed and processing stops —
`run_brain_background` emits exactly the failed probe and the failed status,
and the AI workflow is never invoked; but since the readiness check happens
only after the Scanner call, the analyzer tools have already been launched
whenever the pipeline reaches that point. -/
theorem claim_C3 (env : ScanEnv) (h : env.brain.services_ready = false) :
    run_brain_trace env.brain =
      [.readiness_probe false, .status_set (str "failed")] ∧
    ScanEv.workflow_invoked ∉ perform_scan_trace env ∧
    (env.path_exists = true → env.db_create_ok = true →
      (env.clone_needed = true → env.clone_ok = true) →
      ScanEv.analyzer_invoked ∈ perform_scan_trace env ∧
      last_status (perform_scan_trace env) = some (str "failed")) := by
  obtain ⟨pe, db, cn, co, so, sr, po, wo⟩ := env
  simp only at h
  subst h
  cases pe <;> cases db <;> cases cn <;> cases co <;> cases so <;> cases po <;>
    cases wo <;> decide

theorem claim_C3_witness :
    ScanEv.analyzer_invoked ∈ perform_scan_trace timeoutEnv ∧
    last_status (perform_scan_trace timeoutEnv) = some (str "failed") :=
  (claim_C3 timeoutEnv (by decide)).2.2 (by decide) (by decide) (fun _ => by decide)

end DevSecOps
